import Mathlib

/-!
Verification of the Parkinson detection pipeline.

Shallow embedding of the detection core:
  * `app/utils.py`: `fallback_detection`, `detect_parkinson`,
    `convert_webm_to_wav` (abstracted as the environment's `convert`),
    `extract_features` (abstracted as the environment's `extract`);
  * `app/views.py`: `values_predict` and `VALUES_FEATURE_NAMES`.

Python floats are modelled as rationals (`ℚ`).  `np.std xs > 50` is encoded
as `npVar xs > 50 ^ 2` (`np.std` is the square root of the population
variance `npVar`; both sides of the comparison are nonnegative, so the
comparison of squares is equivalent).  Python's `round(x, 2)` (banker's
rounding to two decimal places) is modelled exactly by `pyRound2`.
External effects (ffmpeg, librosa, the pickled model and scaler) are
abstracted as fields of an environment record: the pipeline code under
verification is everything around them.
-/

/-- Banker's rounding (round half to even) of a rational to an integer,
the rounding mode of Python 3's builtin `round`. -/
def roundHalfEven (q : ℚ) : ℤ :=
  if q - Int.floor q < 1/2 then Int.floor q
  else if 1/2 < q - Int.floor q then Int.floor q + 1
  else if Int.floor q % 2 = 0 then Int.floor q else Int.floor q + 1

/-- Python's `round(x, 2)`: round to two decimal places, half to even. -/
def pyRound2 (x : ℚ) : ℚ := (roundHalfEven (x * 100) : ℚ) / 100

/-- `np.mean xs` for a one-dimensional array. -/
def npMean (xs : List ℚ) : ℚ := xs.sum / xs.length

/-- Square of `np.std xs` (population variance, `ddof = 0`).
`np.std xs > c` for `c ≥ 0` is equivalent to `npVar xs > c ^ 2`. -/
def npVar (xs : List ℚ) : ℚ :=
  ((xs.map fun x => (x - npMean xs) ^ 2).sum) / xs.length

/-- `app/utils.py, fallback_detection` (lines 94-141).
Heuristic probability from an acoustic feature vector:
fewer than 18 features gives the neutral 0.5; otherwise a score starts at 0,
adds 0.3 when RMS energy (index 14) < 0.02, adds 0.2 when the spectral
centroid (index 15) is < 2000 or > 5000, adds 0.2 when the standard
deviation of the 13 MFCC means (indices 0-12) exceeds 50 (encoded on
squares as `npVar > 50 ^ 2 = 2500`), and returns `min score 1.0`.
The sequential `score += ...` accumulation is written as the sum of the
three conditional increments, which is the same value.  Indexing uses
`getD _ 0`; under the guard the length is at least 18 so the default is
never taken.  (Index 13, the zero-crossing rate, is read but unused by the
Python code; the `except` branch returning 0.5 is unreachable in this pure
model.) -/
def fallback_detection (features : List ℚ) : ℚ :=
  if features.length < 18 then 1/2
  else
    min ((if features.getD 14 0 < 2/100 then (3 : ℚ)/10 else 0) +
         (if features.getD 15 0 < 2000 ∨ 5000 < features.getD 15 0 then (2 : ℚ)/10 else 0) +
         (if 2500 < npVar (features.take 13) then (2 : ℚ)/10 else 0))
        1

/-- The structured detection result shared by both modes
(`detect_parkinson`'s returned dict and `values_predict`'s response fields):
label, confidence (percent), raw probability and the feature vector. -/
structure DetectionOutcome where
  result : String
  confidence : ℚ
  probability : ℚ
  features : List ℚ
deriving DecidableEq, Repr

/-- The threshold decision shared verbatim by `detect_parkinson`
(utils.py lines 181-196) and `values_predict` (views.py lines 521-527):
`result = parkinson if probability > threshold else healthy`,
`confidence = round(probability * 100, 2)`. -/
def applyThreshold (threshold probability : ℚ) (features : List ℚ) : DetectionOutcome :=
  { result := if probability > threshold then "parkinson" else "healthy"
    confidence := pyRound2 (probability * 100)
    probability := probability
    features := features }

/-- Pipeline stages recorded by the embedding, to state which steps an
invocation actually performed. -/
inductive Step where
  | normalize
  | extractFeatures
  | modelInference
  | heuristic
deriving DecidableEq, Repr

/-- Request-fatal errors raised by `detect_parkinson`
(conversion failure from `convert_webm_to_wav`, extraction failure from
`extract_features`; both re-raise out of the function). -/
inductive AudioErr where
  | conversion (msg : String)
  | extraction (msg : String)
deriving DecidableEq, Repr

/-- Environment of `detect_parkinson`: the module-level `model`/`scaler`
globals of utils.py (loaded once at import, read-only afterwards) and the
external effects: `convert` is `convert_webm_to_wav` (ffmpeg), `extract`
is `extract_features` (librosa), `inference` is the scaled model
prediction `model.predict_proba(scaler.transform(...))[0][1]`, which may
raise. -/
structure AudioEnv where
  modelLoaded : Bool
  scalerLoaded : Bool
  convert : String → Except String String
  extract : String → Except String (List ℚ)
  inference : List ℚ → Except String ℚ

/-- Python's `str.endswith`, modelled as a character-list suffix check
(Lean core's `String.endsWith` computes the same Bool but is not
kernel-reducible, so the list form is used). -/
def strEndsWith (s suffix : String) : Bool := suffix.data.isSuffixOf s.data

/-- utils.py lines 154-159: convert first when the path ends in `.webm`,
otherwise use the original path.  Returns the audio path (or the
conversion error) together with the steps performed. -/
def audioSource (env : AudioEnv) (path : String) : Except String String × List Step :=
  if strEndsWith path ".webm" then
    match env.convert path with
    | .ok wav => (.ok wav, [Step.normalize])
    | .error e => (.error e, [Step.normalize])
  else (.ok path, [])

/-- utils.py lines 164-179: when both model and scaler are loaded, try
model inference; a raised inference exception is caught and the request
falls through to `fallback_detection`.  Without a loaded model/scaler pair
the heuristic is used directly.  Returns the probability and the steps. -/
def classifyAcoustic (env : AudioEnv) (features : List ℚ) : ℚ × List Step :=
  if env.modelLoaded && env.scalerLoaded then
    match env.inference features with
    | .ok p => (p, [Step.modelInference])
    | .error _ => (fallback_detection features, [Step.modelInference, Step.heuristic])
  else (fallback_detection features, [Step.heuristic])

/-- `app/utils.py, detect_parkinson` (lines 144-199): normalize (webm
only), extract features, classify (model with heuristic fallthrough, or
heuristic), then threshold at 0.65.  Conversion and extraction failures
re-raise.  The result is paired with the ordered list of performed steps. -/
def detect_parkinson (env : AudioEnv) (path : String) :
    Except AudioErr DetectionOutcome × List Step :=
  match audioSource env path with
  | (.error e, t) => (.error (.conversion e), t)
  | (.ok audioPath, t) =>
    match env.extract audioPath with
    | .error e => (.error (.extraction e), t ++ [Step.extractFeatures])
    | .ok features =>
      (.ok (applyThreshold (65/100) (classifyAcoustic env features).1 features),
       t ++ [Step.extractFeatures] ++ (classifyAcoustic env features).2)

/-- `app/views.py, VALUES_FEATURE_NAMES` (lines 444-452): the 22 biomedical
voice features, order fixed. -/
def VALUES_FEATURE_NAMES : List String :=
  ["MDVP:Fo(Hz)", "MDVP:Fhi(Hz)", "MDVP:Flo(Hz)",
   "MDVP:Jitter(%)", "MDVP:Jitter(Abs)", "MDVP:RAP",
   "MDVP:PPQ", "Jitter:DDP", "MDVP:Shimmer",
   "MDVP:Shimmer(dB)", "Shimmer:APQ3", "Shimmer:APQ5",
   "MDVP:APQ", "Shimmer:DDA", "NHR", "HNR",
   "RPDE", "DFA", "spread1", "spread2", "D2", "PPE"]

/-- Errors of `values_predict`: the model-unavailable 500 response
(views.py lines 493-497) and the invalid-value 400 response naming the
offending feature (lines 505-510). -/
inductive ValuesErr where
  | unavailable
  | invalidValue (feature : String)
deriving DecidableEq, Repr

/-- Environment of `values_predict`: the module-level `values_model` /
`values_scaler` globals of views.py and the deterministic scaled inference
`values_model.predict_proba(values_scaler.transform(...))[0][1]`. -/
structure ValuesEnv where
  modelLoaded : Bool
  scalerLoaded : Bool
  inference : List ℚ → ℚ

/-- A POST form, restricted to what `values_predict` reads: for a feature
name, `none` means the field is absent, `some none` means present but its
value does not parse as a Python float (`float(...)` raises `ValueError`),
and `some (some q)` means present with numeric value `q`. -/
def PostData : Type := String → Option (Option ℚ)

/-- views.py lines 501-510: `float(request.POST.get(feature, 0))` for each
feature in order.  An absent field defaults to `0` (so `float(0) = 0.0`);
the first present-but-unparseable field aborts with its name. -/
def collectValues (post : PostData) : List String → Except String (List ℚ)
  | [] => .ok []
  | f :: rest =>
    match post f with
    | none => (collectValues post rest).map fun vs => 0 :: vs
    | some none => .error f
    | some (some q) => (collectValues post rest).map fun vs => q :: vs

/-- `app/views.py, values_predict` (lines 489-560): reject when the values
model or scaler is not loaded; collect the 22 feature values from the POST
data (absent fields default to 0.0, an unparseable field is a 400 error);
run scaled inference; threshold at 0.75. -/
def values_predict (env : ValuesEnv) (post : PostData) :
    Except ValuesErr DetectionOutcome :=
  if !env.modelLoaded || !env.scalerLoaded then .error .unavailable
  else
    match collectValues post VALUES_FEATURE_NAMES with
    | .error f => .error (.invalidValue f)
    | .ok values =>
      .ok (applyThreshold (75/100) (env.inference values) values)

/-- The value `values_predict` ends up using for a feature when no field of
the request fails to parse: the parsed number when present, 0 otherwise. -/
def fillValue (post : PostData) (f : String) : ℚ :=
  match post f with
  | some (some q) => q
  | _ => 0

theorem roundHalfEven_intCast (n : ℤ) : roundHalfEven (n : ℚ) = n := by
  unfold roundHalfEven
  rw [Int.floor_intCast]
  norm_num

theorem pyRound2_intCast (n : ℤ) : pyRound2 (n : ℚ) = (n : ℚ) := by
  unfold pyRound2
  rw [show ((n : ℚ) * 100) = ((n * 100 : ℤ) : ℚ) by push_cast; ring, roundHalfEven_intCast]
  push_cast
  field_simp

theorem applyThreshold_result_iff (t p : ℚ) (fs : List ℚ) :
    (applyThreshold t p fs).result = "parkinson" ↔ t < p := by
  unfold applyThreshold
  dsimp only
  split_ifs with h
  · exact iff_of_true rfl h
  · exact iff_of_false (by simp) h

theorem applyThreshold_result_healthy (t p : ℚ) (fs : List ℚ) (h : p ≤ t) :
    (applyThreshold t p fs).result = "healthy" := by
  unfold applyThreshold
  dsimp only
  rw [if_neg (not_lt.mpr h)]

theorem applyThreshold_self (t p : ℚ) (fs : List ℚ) :
    applyThreshold t p fs =
      applyThreshold t (applyThreshold t p fs).probability (applyThreshold t p fs).features := rfl

theorem detect_parkinson_ok_shape {env : AudioEnv} {path : String} {o : DetectionOutcome}
    (h : (detect_parkinson env path).1 = .ok o) :
    o = applyThreshold (65/100) o.probability o.features := by
  unfold detect_parkinson at h
  rcases hA : audioSource env path with ⟨res, t⟩
  rw [hA] at h
  cases res with
  | error e => simp at h
  | ok ap =>
    dsimp only at h
    rcases hE : env.extract ap with e | fs
    · rw [hE] at h; simp at h
    · rw [hE] at h
      simp at h
      rw [← h]
      rfl

theorem values_predict_ok_shape {env : ValuesEnv} {post : PostData} {o : DetectionOutcome}
    (h : values_predict env post = .ok o) :
    o = applyThreshold (75/100) o.probability o.features := by
  unfold values_predict at h
  split at h
  · simp at h
  · rcases hC : collectValues post VALUES_FEATURE_NAMES with f | vs
    · rw [hC] at h; simp at h
    · rw [hC] at h
      simp at h
      rw [← h]
      rfl

theorem audioSource_not_webm (env : AudioEnv) {path : String}
    (h : strEndsWith path ".webm" = false) :
    audioSource env path = (.ok path, []) := by
  simp [audioSource, h]

theorem audioSource_webm_trace (env : AudioEnv) {path : String}
    (h : strEndsWith path ".webm" = true) :
    (audioSource env path).2 = [Step.normalize] := by
  simp only [audioSource, h, if_true]
  cases env.convert path <;> rfl

theorem classifyAcoustic_no_normalize (env : AudioEnv) (fs : List ℚ) :
    Step.normalize ∉ (classifyAcoustic env fs).2 := by
  unfold classifyAcoustic
  split_ifs with h
  · cases env.inference fs <;> simp
  · simp

theorem classifyAcoustic_model_mem (env : AudioEnv) (fs : List ℚ)
    (h1 : env.modelLoaded = true) (h2 : env.scalerLoaded = true) :
    Step.modelInference ∈ (classifyAcoustic env fs).2 := by
  unfold classifyAcoustic
  rw [h1, h2]
  cases env.inference fs <;> simp

theorem classifyAcoustic_modelOff (env : AudioEnv) (fs : List ℚ)
    (h : env.modelLoaded = false ∨ env.scalerLoaded = false) :
    classifyAcoustic env fs = (fallback_detection fs, [Step.heuristic]) := by
  unfold classifyAcoustic
  rcases h with h | h <;> rw [h] <;> simp

theorem classifyAcoustic_modelErr (env : AudioEnv) (fs : List ℚ) {msg : String}
    (h1 : env.modelLoaded = true) (h2 : env.scalerLoaded = true)
    (hI : env.inference fs = .error msg) :
    classifyAcoustic env fs = (fallback_detection fs, [Step.modelInference, Step.heuristic]) := by
  unfold classifyAcoustic
  rw [h1, h2, hI]
  rfl

theorem detect_parkinson_run {env : AudioEnv} {path ap : String} {t : List Step} {fs : List ℚ}
    (hA : audioSource env path = (.ok ap, t)) (hE : env.extract ap = .ok fs) :
    detect_parkinson env path =
      (.ok (applyThreshold (65/100) (classifyAcoustic env fs).1 fs),
       t ++ [Step.extractFeatures] ++ (classifyAcoustic env fs).2) := by
  unfold detect_parkinson
  rw [hA]
  dsimp only
  rw [hE]

theorem detect_parkinson_extract_err {env : AudioEnv} {path ap : String} {t : List Step}
    {e : String} (hA : audioSource env path = (.ok ap, t)) (hE : env.extract ap = .error e) :
    detect_parkinson env path = (.error (.extraction e), t ++ [Step.extractFeatures]) := by
  unfold detect_parkinson
  rw [hA]
  dsimp only
  rw [hE]

theorem detect_parkinson_convert_err {env : AudioEnv} {path : String} {t : List Step}
    {e : String} (hA : audioSource env path = (.error e, t)) :
    detect_parkinson env path = (.error (.conversion e), t) := by
  unfold detect_parkinson
  rw [hA]

theorem collectValues_ok (post : PostData) (names : List String)
    (h : ∀ f ∈ names, post f ≠ some none) :
    collectValues post names = .ok (names.map (fillValue post)) := by
  induction names with
  | nil => rfl
  | cons f rest ih =>
    have hf := h f (List.mem_cons_self f rest)
    have hrest : ∀ g ∈ rest, post g ≠ some none := fun g hg => h g (List.mem_cons_of_mem _ hg)
    simp only [collectValues, List.map_cons]
    rcases hpf : post f with _ | v
    · rw [ih hrest]
      simp [fillValue, hpf, Except.map]
    · rcases v with _ | q
      · exact absurd hpf hf
      · rw [ih hrest]
        simp [fillValue, hpf, Except.map]

theorem collectValues_err (post : PostData) (names : List String)
    (h : ∃ f ∈ names, post f = some none) :
    ∃ g, g ∈ names ∧ post g = some none ∧ collectValues post names = .error g := by
  induction names with
  | nil => simp at h
  | cons f rest ih =>
    rcases hpf : post f with _ | v
    · have hrest : ∃ g ∈ rest, post g = some none := by
        rcases h with ⟨g, hg, hpg⟩
        rcases List.mem_cons.mp hg with rfl | hg'
        · rw [hpf] at hpg; exact absurd hpg (by simp)
        · exact ⟨g, hg', hpg⟩
      rcases ih hrest with ⟨g, hg, hpg, hcoll⟩
      refine ⟨g, List.mem_cons_of_mem _ hg, hpg, ?_⟩
      simp only [collectValues]
      rw [hpf, hcoll]
      rfl
    · rcases v with _ | q
      · exact ⟨f, List.mem_cons_self f rest, hpf, by simp only [collectValues]; rw [hpf]⟩
      · have hrest : ∃ g ∈ rest, post g = some none := by
          rcases h with ⟨g, hg, hpg⟩
          rcases List.mem_cons.mp hg with rfl | hg'
          · rw [hpf] at hpg; simp at hpg
          · exact ⟨g, hg', hpg⟩
        rcases ih hrest with ⟨g, hg, hpg, hcoll⟩
        refine ⟨g, List.mem_cons_of_mem _ hg, hpg, ?_⟩
        simp only [collectValues]
        rw [hpf, hcoll]
        rfl

theorem values_predict_unavailable {env : ValuesEnv} (post : PostData)
    (h : env.modelLoaded = false ∨ env.scalerLoaded = false) :
    values_predict env post = .error .unavailable := by
  unfold values_predict
  rcases h with h | h <;> rw [h] <;> simp

theorem values_predict_ok_run {env : ValuesEnv} {post : PostData} {vs : List ℚ}
    (h1 : env.modelLoaded = true) (h2 : env.scalerLoaded = true)
    (hC : collectValues post VALUES_FEATURE_NAMES = .ok vs) :
    values_predict env post = .ok (applyThreshold (75/100) (env.inference vs) vs) := by
  unfold values_predict
  rw [h1, h2, hC]
  rfl

theorem values_predict_err_run {env : ValuesEnv} {post : PostData} {g : String}
    (h1 : env.modelLoaded = true) (h2 : env.scalerLoaded = true)
    (hC : collectValues post VALUES_FEATURE_NAMES = .error g) :
    values_predict env post = .error (.invalidValue g) := by
  unfold values_predict
  rw [h1, h2, hC]
  rfl

/-- Concrete 18-element acoustic vector: MFCC means `[150, -150, 30, -30, 0 × 9]`
(mean 0, population variance 46800/13 = 3600, so standard deviation exactly 60),
zero-crossing rate 0, RMS energy 0.01, spectral centroid 1000, bandwidth 0,
rolloff 0.  All three heuristic rules fire on it. -/
def c3vec : List ℚ :=
  [150, -150, 30, -30, 0, 0, 0, 0, 0, 0, 0, 0, 0, 0, 1/100, 1000, 0, 0]

/-- Concrete acoustic environment with no loaded model or scaler: every
request is served by the heuristic.  Extraction always yields `c3vec`. -/
def heuristicEnv : AudioEnv :=
  { modelLoaded := false
    scalerLoaded := false
    convert := fun _ => .ok "a.wav"
    extract := fun _ => .ok c3vec
    inference := fun _ => .ok 0 }

/-- Concrete acoustic environment whose model inference always raises. -/
def modelErrEnv : AudioEnv :=
  { modelLoaded := true
    scalerLoaded := true
    convert := fun _ => .ok "c.wav"
    extract := fun _ => .ok c3vec
    inference := fun _ => .error "boom" }

/-- Concrete biomedical environment: model and scaler loaded, inference
constantly 1/2. -/
def cValuesEnv : ValuesEnv :=
  { modelLoaded := true, scalerLoaded := true, inference := fun _ => 1/2 }

/-- POST data supplying every biomedical feature with value 1. -/
def cPostFull : PostData := fun _ => some (some 1)

/-- POST data supplying 21 of the 22 biomedical features ("PPE" absent). -/
def cPost21 : PostData := fun f => if f = "PPE" then none else some (some 1)

/-- POST data where the field "NHR" is present but not parseable as a float. -/
def cPostBad : PostData := fun f => if f = "NHR" then some none else some (some 1)

theorem fallback_c3vec : fallback_detection c3vec = 7/10 := by
  norm_num [c3vec, fallback_detection, npVar, npMean]

theorem applyThreshold_c3vec :
    applyThreshold (65/100) (7/10) c3vec = ⟨"parkinson", 70, 7/10, c3vec⟩ := by
  unfold applyThreshold
  norm_num [pyRound2, roundHalfEven]

theorem heuristicEnv_run :
    detect_parkinson heuristicEnv "a.wav" =
      (.ok ⟨"parkinson", 70, 7/10, c3vec⟩, [Step.extractFeatures, Step.heuristic]) := by
  have hA : audioSource heuristicEnv "a.wav" = (.ok "a.wav", []) :=
    audioSource_not_webm _ rfl
  have hE : heuristicEnv.extract "a.wav" = .ok c3vec := rfl
  rw [detect_parkinson_run hA hE, classifyAcoustic_modelOff _ _ (Or.inl rfl)]
  dsimp only
  rw [fallback_c3vec, applyThreshold_c3vec]
  rfl

theorem cPostFull_collect :
    collectValues cPostFull VALUES_FEATURE_NAMES = .ok (List.replicate 22 1) := rfl

theorem cPost21_collect :
    collectValues cPost21 VALUES_FEATURE_NAMES = .ok (List.replicate 21 1 ++ [0]) := rfl

theorem applyThreshold_half :
    ∀ vs : List ℚ, applyThreshold (75/100) (1/2) vs = ⟨"healthy", 50, 1/2, vs⟩ := by
  intro vs
  unfold applyThreshold
  norm_num [pyRound2, roundHalfEven]

theorem cValuesEnv_runFull :
    values_predict cValuesEnv cPostFull = .ok ⟨"healthy", 50, 1/2, List.replicate 22 1⟩ := by
  rw [values_predict_ok_run rfl rfl cPostFull_collect]
  rw [show cValuesEnv.inference (List.replicate 22 1) = 1/2 from rfl, applyThreshold_half]

theorem cValuesEnv_run21 :
    values_predict cValuesEnv cPost21 = .ok ⟨"healthy", 50, 1/2, List.replicate 21 1 ++ [0]⟩ := by
  rw [values_predict_ok_run rfl rfl cPost21_collect]
  rw [show cValuesEnv.inference (List.replicate 21 1 ++ [0]) = 1/2 from rfl, applyThreshold_half]

theorem fallback_cases (v : List ℚ) (hl : ¬ v.length < 18) :
    fallback_detection v =
      (if v.getD 14 0 < 2/100 then (3 : ℚ)/10 else 0) +
      (if v.getD 15 0 < 2000 ∨ 5000 < v.getD 15 0 then (2 : ℚ)/10 else 0) +
      (if 2500 < npVar (v.take 13) then (2 : ℚ)/10 else 0) := by
  unfold fallback_detection
  rw [if_neg hl]
  apply min_eq_left
  split_ifs <;> norm_num

theorem fallback_le (v : List ℚ) : fallback_detection v ≤ 7/10 := by
  by_cases hl : v.length < 18
  · unfold fallback_detection
    rw [if_pos hl]
    norm_num
  · rw [fallback_cases v hl]
    split_ifs <;> norm_num

theorem fallback_nonneg (v : List ℚ) : 0 ≤ fallback_detection v := by
  by_cases hl : v.length < 18
  · unfold fallback_detection
    rw [if_pos hl]
    norm_num
  · rw [fallback_cases v hl]
    split_ifs <;> norm_num

theorem fallback_gt65 {v : List ℚ} (h : 65/100 < fallback_detection v) :
    v.getD 14 0 < 2/100 ∧ (v.getD 15 0 < 2000 ∨ 5000 < v.getD 15 0) ∧
    2500 < npVar (v.take 13) ∧ fallback_detection v = 7/10 := by
  by_cases hl : v.length < 18
  · unfold fallback_detection at h
    rw [if_pos hl] at h
    norm_num at h
  · rw [fallback_cases v hl] at h ⊢
    split_ifs at h ⊢ with h1 h2 h3
    · exact ⟨h1, h2, h3, by norm_num⟩
    all_goals norm_num at h

theorem detect_parkinson_heuristic_prob {env : AudioEnv} {path : String} {o : DetectionOutcome}
    (hm : env.modelLoaded = false ∨ env.scalerLoaded = false)
    (h : (detect_parkinson env path).1 = .ok o) :
    o.probability = fallback_detection o.features := by
  unfold detect_parkinson at h
  rcases hA : audioSource env path with ⟨res, t⟩
  rw [hA] at h
  cases res with
  | error e => simp at h
  | ok ap =>
    dsimp only at h
    rcases hE : env.extract ap with e | fs
    · rw [hE] at h; simp at h
    · rw [hE] at h
      simp at h
      rw [classifyAcoustic_modelOff env fs hm] at h
      rw [← h]
      rfl

/-- C1: every detection outcome, in both modes, satisfies the decision
invariant: the label is "parkinson" iff the probability strictly exceeds
the mode's threshold (0.65 acoustic, 0.75 biomedical), a probability at or
below the threshold (in particular, exactly equal to it) yields "healthy",
and the confidence is `round(probability * 100, 2)`. -/
theorem C1_decision_invariant :
    (∀ (env : AudioEnv) (path : String) (o : DetectionOutcome),
        (detect_parkinson env path).1 = .ok o →
        (o.result = "parkinson" ↔ 65/100 < o.probability) ∧
        (o.probability ≤ 65/100 → o.result = "healthy") ∧
        o.confidence = pyRound2 (o.probability * 100)) ∧
    (∀ (env : ValuesEnv) (post : PostData) (o : DetectionOutcome),
        values_predict env post = .ok o →
        (o.result = "parkinson" ↔ 75/100 < o.probability) ∧
        (o.probability ≤ 75/100 → o.result = "healthy") ∧
        o.confidence = pyRound2 (o.probability * 100)) := by
  constructor
  · intro env path o h
    have hs := detect_parkinson_ok_shape h
    have hres : o.result = (applyThreshold (65/100) o.probability o.features).result := by
      rw [← hs]
    have hconf : o.confidence = (applyThreshold (65/100) o.probability o.features).confidence := by
      rw [← hs]
    refine ⟨?_, ?_, ?_⟩
    · rw [hres]
      exact applyThreshold_result_iff _ _ _
    · intro hp
      rw [hres]
      exact applyThreshold_result_healthy _ _ _ hp
    · rw [hconf]
      rfl
  · intro env post o h
    have hs := values_predict_ok_shape h
    have hres : o.result = (applyThreshold (75/100) o.probability o.features).result := by
      rw [← hs]
    have hconf : o.confidence = (applyThreshold (75/100) o.probability o.features).confidence := by
      rw [← hs]
    refine ⟨?_, ?_, ?_⟩
    · rw [hres]
      exact applyThreshold_result_iff _ _ _
    · intro hp
      rw [hres]
      exact applyThreshold_result_healthy _ _ _ hp
    · rw [hconf]
      rfl

/-- Witness for C1: the invariant instantiated on a concrete heuristic-path
acoustic run (probability 0.7 at threshold 0.65, label "parkinson") and a
concrete biomedical run (probability 0.5 at threshold 0.75, label
"healthy" with confidence 50). -/
theorem C1_decision_invariant_witness :
    (detect_parkinson heuristicEnv "a.wav").1 = .ok ⟨"parkinson", 70, 7/10, c3vec⟩ ∧
    values_predict cValuesEnv cPostFull = .ok ⟨"healthy", 50, 1/2, List.replicate 22 1⟩ ∧
    ("parkinson" = "parkinson" ↔ (65 : ℚ)/100 < 7/10) ∧
    ((1 : ℚ)/2 ≤ 75/100 → "healthy" = "healthy") ∧ (50 : ℚ) = pyRound2 (1/2 * 100) := by
  have h1 := C1_decision_invariant.1 heuristicEnv "a.wav"
    ⟨"parkinson", 70, 7/10, c3vec⟩ (by rw [heuristicEnv_run])
  have h2 := C1_decision_invariant.2 cValuesEnv cPostFull
    ⟨"healthy", 50, 1/2, List.replicate 22 1⟩ (by rw [cValuesEnv_runFull])
  exact ⟨by rw [heuristicEnv_run], cValuesEnv_runFull, h1.1, h2.2.1, h2.2.2⟩

/-- C3: for every 18-element acoustic vector the heuristic score equals
`min (r1 + r2 + r3) 1` with `r1 = 0.3` iff RMS (index 14) < 0.02,
`r2 = 0.2` iff the centroid (index 15) is < 2000 or > 5000, `r3 = 0.2` iff
the standard deviation of the 13 MFCC means exceeds 50 (stated on squares:
`npVar > 2500`), so the score lies in `[0, 1]`; and on the concrete vector
`c3vec` (RMS 0.01, centroid 1000, MFCC standard deviation 60, i.e.
`npVar = 60 ^ 2`) the score is exactly 0.7. -/
theorem C3_heuristic_formula :
    (∀ v : List ℚ, v.length = 18 →
        fallback_detection v =
          min ((if v.getD 14 0 < 2/100 then (3 : ℚ)/10 else 0) +
               (if v.getD 15 0 < 2000 ∨ 5000 < v.getD 15 0 then (2 : ℚ)/10 else 0) +
               (if 2500 < npVar (v.take 13) then (2 : ℚ)/10 else 0)) 1 ∧
        0 ≤ fallback_detection v ∧ fallback_detection v ≤ 1) ∧
    npVar (c3vec.take 13) = 60 ^ 2 ∧ c3vec.getD 14 0 = 1/100 ∧
    c3vec.getD 15 0 = 1000 ∧ fallback_detection c3vec = 7/10 := by
  refine ⟨?_, ?_, rfl, rfl, fallback_c3vec⟩
  · intro v hv
    have hl : ¬ v.length < 18 := by omega
    refine ⟨?_, fallback_nonneg v, (fallback_le v).trans (by norm_num)⟩
    unfold fallback_detection
    rw [if_neg hl]
  · norm_num [c3vec, npVar, npMean]

/-- Witness for C3: the universally quantified part applied to the concrete
18-element vector `c3vec`. -/
theorem C3_heuristic_formula_witness :
    c3vec.length = 18 ∧
    fallback_detection c3vec =
      min ((if c3vec.getD 14 0 < 2/100 then (3 : ℚ)/10 else 0) +
           (if c3vec.getD 15 0 < 2000 ∨ 5000 < c3vec.getD 15 0 then (2 : ℚ)/10 else 0) +
           (if 2500 < npVar (c3vec.take 13) then (2 : ℚ)/10 else 0)) 1 ∧
    0 ≤ fallback_detection c3vec ∧ fallback_detection c3vec ≤ 1 :=
  ⟨rfl, C3_heuristic_formula.1 c3vec rfl⟩

/-- C7: a feature vector with fewer than 18 elements always receives the
neutral heuristic score 0.5, regardless of its contents. -/
theorem C7_short_vector_neutral :
    ∀ v : List ℚ, v.length < 18 → fallback_detection v = 1/2 := by
  intro v h
  unfold fallback_detection
  rw [if_pos h]

/-- Witness for C7: the two-element vector `[999, -5]` scores 0.5. -/
theorem C7_short_vector_neutral_witness :
    ([999, -5] : List ℚ).length < 18 ∧ fallback_detection [999, -5] = 1/2 :=
  ⟨by norm_num, C7_short_vector_neutral [999, -5] (by norm_num)⟩

/-- C4: in acoustic mode with a loaded model and scaler, when model
inference raises for a request that reached the classification stage, the
request is classified by the heuristic instead: the detection completes
with an outcome whose probability is the heuristic score, no error is
surfaced, and a later request under the same (unchanged) environment still
attempts model inference. -/
theorem C4_inference_failure_falls_back :
    ∀ (env : AudioEnv) (path ap : String) (t : List Step) (fs : List ℚ) (msg : String),
      env.modelLoaded = true → env.scalerLoaded = true →
      audioSource env path = (.ok ap, t) →
      env.extract ap = .ok fs →
      env.inference fs = .error msg →
      (detect_parkinson env path).1 =
        .ok (applyThreshold (65/100) (fallback_detection fs) fs) ∧
      (detect_parkinson env path).2 =
        t ++ [Step.extractFeatures, Step.modelInference, Step.heuristic] ∧
      (∀ (path2 ap2 : String) (t2 : List Step) (fs2 : List ℚ),
        audioSource env path2 = (.ok ap2, t2) → env.extract ap2 = .ok fs2 →
        Step.modelInference ∈ (detect_parkinson env path2).2) := by
  intro env path ap t fs msg h1 h2 hA hE hI
  have hc := classifyAcoustic_modelErr env fs h1 h2 hI
  rw [detect_parkinson_run hA hE, hc]
  refine ⟨rfl, by simp, ?_⟩
  intro path2 ap2 t2 fs2 hA2 hE2
  rw [detect_parkinson_run hA2 hE2]
  exact List.mem_append.mpr (Or.inr (classifyAcoustic_model_mem env fs2 h1 h2))

/-- Witness for C4: the environment `modelErrEnv`, whose inference always
raises, classifies the request "b.wav" heuristically and completes. -/
theorem C4_inference_failure_falls_back_witness :
    modelErrEnv.modelLoaded = true ∧ modelErrEnv.scalerLoaded = true ∧
    modelErrEnv.inference c3vec = .error "boom" ∧
    (detect_parkinson modelErrEnv "b.wav").1 =
      .ok (applyThreshold (65/100) (fallback_detection c3vec) c3vec) ∧
    (detect_parkinson modelErrEnv "b.wav").2 =
      [Step.extractFeatures, Step.modelInference, Step.heuristic] := by
  have h := C4_inference_failure_falls_back modelErrEnv "b.wav" "b.wav" [] c3vec "boom"
    rfl rfl (audioSource_not_webm _ rfl) rfl rfl
  exact ⟨rfl, rfl, rfl, h.1, h.2.1⟩

/-- C5: when the biomedical model or scaler is not loaded, every call to
`values_predict` reports the mode unavailable (the 500 error), for every
request and for every inference function (so inference is never consulted
and no outcome is produced). -/
theorem C5_values_unavailable :
    (∀ (s : Bool) (g : List ℚ → ℚ) (post : PostData),
        values_predict ⟨false, s, g⟩ post = .error .unavailable) ∧
    (∀ (m : Bool) (g : List ℚ → ℚ) (post : PostData),
        values_predict ⟨m, false, g⟩ post = .error .unavailable) :=
  ⟨fun _ _ post => values_predict_unavailable post (Or.inl rfl),
   fun _ _ post => values_predict_unavailable post (Or.inr rfl)⟩

/-- C6: normalization runs, as the first step and before feature
extraction, exactly when the input path ends in ".webm"; on any other
extension the trace contains no normalization step and extraction is
applied to the original path. -/
theorem C6_webm_normalization :
    ∀ (env : AudioEnv) (path : String),
      (Step.normalize ∈ (detect_parkinson env path).2 ↔ strEndsWith path ".webm" = true) ∧
      (strEndsWith path ".webm" = true →
        ∃ t, (detect_parkinson env path).2 = Step.normalize :: t) ∧
      (strEndsWith path ".webm" = false →
        Step.normalize ∉ (detect_parkinson env path).2 ∧
        (∀ fs, env.extract path = .ok fs →
          (detect_parkinson env path).1 =
            .ok (applyThreshold (65/100) (classifyAcoustic env fs).1 fs)) ∧
        (∀ e, env.extract path = .error e →
          (detect_parkinson env path).1 = .error (.extraction e))) := by
  intro env path
  by_cases hw : strEndsWith path ".webm" = true
  · have hfirst : ∃ t, (detect_parkinson env path).2 = Step.normalize :: t := by
      rcases hA : audioSource env path with ⟨res, t⟩
      have ht : t = [Step.normalize] := by
        have := audioSource_webm_trace env hw
        rw [hA] at this
        exact this
      subst ht
      cases res with
      | error e => exact ⟨[], by rw [detect_parkinson_convert_err hA]⟩
      | ok ap =>
        rcases hE : env.extract ap with e | fs
        · exact ⟨[Step.extractFeatures], by rw [detect_parkinson_extract_err hA hE]; rfl⟩
        · exact ⟨[Step.extractFeatures] ++ (classifyAcoustic env fs).2,
            by rw [detect_parkinson_run hA hE]; rfl⟩
    refine ⟨?_, fun _ => hfirst, fun hc => absurd hw (by rw [hc]; simp)⟩
    rcases hfirst with ⟨t, ht⟩
    rw [ht]
    simp [hw]
  · have hw' : strEndsWith path ".webm" = false := by
      cases h : strEndsWith path ".webm"
      · rfl
      · exact absurd h hw
    have hA := audioSource_not_webm env hw'
    have hnomem : Step.normalize ∉ (detect_parkinson env path).2 := by
      rcases hE : env.extract path with e | fs
      · rw [detect_parkinson_extract_err hA hE]
        simp
      · rw [detect_parkinson_run hA hE]
        intro hmem
        rcases List.mem_append.mp hmem with hmem' | hmem'
        · simp at hmem'
        · exact classifyAcoustic_no_normalize env fs hmem'
    refine ⟨⟨fun hmem => absurd (hnomem hmem) (fun h => h), fun h => absurd h hw⟩,
      fun h => absurd h hw, fun _ => ⟨hnomem, ?_, ?_⟩⟩
    · intro fs hE
      rw [detect_parkinson_run hA hE]
    · intro e hE
      rw [detect_parkinson_extract_err hA hE]

/-- Witness for C6: a ".webm" request under `heuristicEnv` starts with the
normalization step; an ".wav" request performs no normalization. -/
theorem C6_webm_normalization_witness :
    strEndsWith "a.webm" ".webm" = true ∧ strEndsWith "a.wav" ".webm" = false ∧
    (∃ t, (detect_parkinson heuristicEnv "a.webm").2 = Step.normalize :: t) ∧
    Step.normalize ∉ (detect_parkinson heuristicEnv "a.wav").2 :=
  ⟨rfl, rfl, (C6_webm_normalization heuristicEnv "a.webm").2.1 rfl,
   ((C6_webm_normalization heuristicEnv "a.wav").2.2 rfl).1⟩

/-- Counterexample to C2 as stated: `cPost21` supplies exactly 21 of the 22
biomedical features ("PPE" is absent), yet `values_predict` raises no
error and produces a `DetectionOutcome` — the missing feature is filled
with 0 and inference runs (there is no length validation in the code). -/
theorem C2_counterexample :
    (VALUES_FEATURE_NAMES.filter fun f => (cPost21 f).isSome).length = 21 ∧
    values_predict cValuesEnv cPost21 =
      .ok ⟨"healthy", 50, 1/2, List.replicate 21 1 ++ [0]⟩ :=
  ⟨rfl, cValuesEnv_run21⟩

/-- C2 (amended): a values-mode request supplying only 21 of the 22
biomedical features (one absent, all supplied ones parseable) is not
rejected: when the model and scaler are loaded, the absent feature is
assigned 0.0 and inference proceeds on the resulting full 22-element
vector, producing a DetectionOutcome. -/
theorem C2_missing_feature_defaults :
    ∀ (env : ValuesEnv) (post : PostData) (f0 : String),
      env.modelLoaded = true → env.scalerLoaded = true →
      f0 ∈ VALUES_FEATURE_NAMES → post f0 = none →
      (∀ f ∈ VALUES_FEATURE_NAMES, f ≠ f0 → ∃ q, post f = some (some q)) →
      values_predict env post =
        .ok (applyThreshold (75/100)
              (env.inference (VALUES_FEATURE_NAMES.map (fillValue post)))
              (VALUES_FEATURE_NAMES.map (fillValue post))) ∧
      (VALUES_FEATURE_NAMES.map (fillValue post)).length = 22 ∧
      fillValue post f0 = 0 := by
  intro env post f0 h1 h2 hmem hab hoth
  have hnone : ∀ f ∈ VALUES_FEATURE_NAMES, post f ≠ some none := by
    intro f hf
    by_cases hf0 : f = f0
    · rw [hf0, hab]
      simp
    · rcases hoth f hf hf0 with ⟨q, hq⟩
      rw [hq]
      simp
  refine ⟨values_predict_ok_run h1 h2 (collectValues_ok _ _ hnone), ?_, ?_⟩
  · rw [List.length_map]
    rfl
  · simp [fillValue, hab]

/-- Witness for the amended C2: the 21-feature request `cPost21` (missing
"PPE") under the loaded environment `cValuesEnv` yields an outcome and
the absent feature contributes the value 0. -/
theorem C2_missing_feature_defaults_witness :
    "PPE" ∈ VALUES_FEATURE_NAMES ∧ cPost21 "PPE" = none ∧
    values_predict cValuesEnv cPost21 =
      .ok (applyThreshold (75/100)
            (cValuesEnv.inference (VALUES_FEATURE_NAMES.map (fillValue cPost21)))
            (VALUES_FEATURE_NAMES.map (fillValue cPost21))) ∧
    (VALUES_FEATURE_NAMES.map (fillValue cPost21)).length = 22 ∧
    fillValue cPost21 "PPE" = 0 :=
  ⟨by decide, rfl,
   C2_missing_feature_defaults cValuesEnv cPost21 "PPE" rfl rfl (by decide) rfl
    (fun f _ hne => ⟨1, by simp [cPost21, hne]⟩)⟩

/-- C8: values-mode inference is deterministic: two calls whose collected
22-element input vectors are identical, under the same loaded environment,
return the very same outcome (hence the same label, confidence,
probability and feature vector). -/
theorem C8_values_deterministic :
    ∀ (env : ValuesEnv) (post1 post2 : PostData) (v : List ℚ),
      env.modelLoaded = true → env.scalerLoaded = true →
      collectValues post1 VALUES_FEATURE_NAMES = .ok v →
      collectValues post2 VALUES_FEATURE_NAMES = .ok v →
      v.length = 22 →
      values_predict env post1 = values_predict env post2 ∧
      ∃ o : DetectionOutcome,
        values_predict env post1 = .ok o ∧ values_predict env post2 = .ok o := by
  intro env post1 post2 v h1 h2 hc1 hc2 _
  rw [values_predict_ok_run h1 h2 hc1, values_predict_ok_run h1 h2 hc2]
  exact ⟨rfl, _, rfl, rfl⟩

/-- Witness for C8: two calls with the full 22-value request `cPostFull`
agree (both produce the "healthy"/50 outcome). -/
theorem C8_values_deterministic_witness :
    collectValues cPostFull VALUES_FEATURE_NAMES = .ok (List.replicate 22 1) ∧
    (List.replicate (22 : ℕ) (1 : ℚ)).length = 22 ∧
    values_predict cValuesEnv cPostFull = values_predict cValuesEnv cPostFull ∧
    ∃ o : DetectionOutcome,
      values_predict cValuesEnv cPostFull = .ok o ∧
      values_predict cValuesEnv cPostFull = .ok o :=
  ⟨cPostFull_collect, by simp,
   C8_values_deterministic cValuesEnv cPostFull cPostFull (List.replicate 22 1)
    rfl rfl cPostFull_collect cPostFull_collect (by simp)⟩

/-- C9: the heuristic score never exceeds 0.7; for a vector of length at
least 18 the clamp `min _ 1` is never binding (the score equals the bare
sum of the three rule increments); and a heuristic-path acoustic detection
(no loaded model/scaler) can be labelled "parkinson" only when all three
rules fire, in which case the probability is exactly 0.7. -/
theorem C9_heuristic_cap :
    (∀ v : List ℚ, fallback_detection v ≤ 7/10) ∧
    (∀ v : List ℚ, ¬ v.length < 18 →
      fallback_detection v =
        (if v.getD 14 0 < 2/100 then (3 : ℚ)/10 else 0) +
        (if v.getD 15 0 < 2000 ∨ 5000 < v.getD 15 0 then (2 : ℚ)/10 else 0) +
        (if 2500 < npVar (v.take 13) then (2 : ℚ)/10 else 0)) ∧
    (∀ (env : AudioEnv) (path : String) (o : DetectionOutcome),
      env.modelLoaded = false ∨ env.scalerLoaded = false →
      (detect_parkinson env path).1 = .ok o →
      o.result = "parkinson" →
      o.features.getD 14 0 < 2/100 ∧
      (o.features.getD 15 0 < 2000 ∨ 5000 < o.features.getD 15 0) ∧
      2500 < npVar (o.features.take 13) ∧
      o.probability = 7/10) := by
  refine ⟨fallback_le, fallback_cases, ?_⟩
  intro env path o hm h hp
  have hprob := detect_parkinson_heuristic_prob hm h
  have hs := detect_parkinson_ok_shape h
  have hres : o.result = (applyThreshold (65/100) o.probability o.features).result := by
    rw [← hs]
  rw [hres, applyThreshold_result_iff] at hp
  rw [hprob] at hp
  have hg := fallback_gt65 hp
  exact ⟨hg.1, hg.2.1, hg.2.2.1, by rw [hprob]; exact hg.2.2.2⟩

/-- Witness for C9: the concrete heuristic-path run on `c3vec` (all three
rules fire, probability exactly 0.7, label "parkinson") and the clamp-free
form of the score on `c3vec`. -/
theorem C9_heuristic_cap_witness :
    heuristicEnv.modelLoaded = false ∧
    (detect_parkinson heuristicEnv "a.wav").1 = .ok ⟨"parkinson", 70, 7/10, c3vec⟩ ∧
    ((1/100 : ℚ) < 2/100 ∧ ((1000 : ℚ) < 2000 ∨ (5000 : ℚ) < 1000) ∧
      2500 < npVar (c3vec.take 13) ∧ (7/10 : ℚ) = 7/10) ∧
    fallback_detection c3vec =
      (if c3vec.getD 14 0 < 2/100 then (3 : ℚ)/10 else 0) +
      (if c3vec.getD 15 0 < 2000 ∨ 5000 < c3vec.getD 15 0 then (2 : ℚ)/10 else 0) +
      (if 2500 < npVar (c3vec.take 13) then (2 : ℚ)/10 else 0) := by
  have h := C9_heuristic_cap.2.2 heuristicEnv "a.wav" ⟨"parkinson", 70, 7/10, c3vec⟩
    (Or.inl rfl) (by rw [heuristicEnv_run]) rfl
  exact ⟨rfl, by rw [heuristicEnv_run], h, C9_heuristic_cap.2.1 c3vec (by norm_num [c3vec])⟩

/-- C10: in values mode with a loaded model and scaler, a request whose
present fields all parse is never rejected: each absent feature is
silently assigned 0.0 and inference proceeds on the full 22-element
vector; and a rejection can only be caused by a feature that is present
but unparseable, in which case the invalid-value error is returned for
every inference function (no inference is performed). -/
theorem C10_missing_defaults_zero :
    ∀ (env : ValuesEnv) (post : PostData),
      env.modelLoaded = true → env.scalerLoaded = true →
      ((∀ f ∈ VALUES_FEATURE_NAMES, post f ≠ some none) →
        values_predict env post =
          .ok (applyThreshold (75/100)
                (env.inference (VALUES_FEATURE_NAMES.map (fillValue post)))
                (VALUES_FEATURE_NAMES.map (fillValue post))) ∧
        (VALUES_FEATURE_NAMES.map (fillValue post)).length = 22 ∧
        (∀ f ∈ VALUES_FEATURE_NAMES, post f = none → fillValue post f = 0)) ∧
      ((∃ f ∈ VALUES_FEATURE_NAMES, post f = some none) →
        ∃ g, g ∈ VALUES_FEATURE_NAMES ∧ post g = some none ∧
          ∀ inf2 : List ℚ → ℚ,
            values_predict ⟨true, true, inf2⟩ post = .error (.invalidValue g)) := by
  intro env post h1 h2
  constructor
  · intro hall
    refine ⟨values_predict_ok_run h1 h2 (collectValues_ok _ _ hall), ?_, ?_⟩
    · rw [List.length_map]
      rfl
    · intro f _ hnone
      simp [fillValue, hnone]
  · intro hex
    rcases collectValues_err post _ hex with ⟨g, hg, hpg, hcoll⟩
    exact ⟨g, hg, hpg, fun inf2 => values_predict_err_run rfl rfl hcoll⟩

/-- Witness for C10: the all-present request `cPostFull` is accepted, and
the request `cPostBad`, whose "NHR" field does not parse, is rejected with
the invalid-value error naming "NHR", for the concrete inference of
`cValuesEnv`. -/
theorem C10_missing_defaults_zero_witness :
    cValuesEnv.modelLoaded = true ∧ cValuesEnv.scalerLoaded = true ∧
    cPostBad "NHR" = some none ∧
    values_predict cValuesEnv cPostFull =
      .ok (applyThreshold (75/100)
            (cValuesEnv.inference (VALUES_FEATURE_NAMES.map (fillValue cPostFull)))
            (VALUES_FEATURE_NAMES.map (fillValue cPostFull))) ∧
    values_predict cValuesEnv cPostBad = .error (.invalidValue "NHR") := by
  have h1 := ((C10_missing_defaults_zero cValuesEnv cPostFull rfl rfl).1
    (by intro f _; simp [cPostFull])).1
  have h2 := (C10_missing_defaults_zero cValuesEnv cPostBad rfl rfl).2
    ⟨"NHR", by decide, rfl⟩
  rcases h2 with ⟨g, _, hpg, hall⟩
  have hgeq : g = "NHR" := by
    by_contra hne
    rw [show cPostBad g = some (some 1) by simp [cPostBad, hne]] at hpg
    simp at hpg
  refine ⟨rfl, rfl, rfl, h1, ?_⟩
  rw [← hgeq]
  exact hall cValuesEnv.inference

